import Mathlib

/-!
Verification development for the html-template-literal extension.

Source text is modelled as `List Char` with integer offset addressing, as in the
TypeScript source. The two lexical scanners present under `src/`
(`findClosingBacktick` in `src/foldingProvider.ts` and `isInsideComment` in
`src/utils.ts`) are embedded as step functions iterated with explicit fuel
(fuel `length + 1` is always sufficient because every step advances the index
by at least one). JavaScript numbers that can in principle go negative
(the depth counters) are modelled as `Int`; `-1` sentinel returns are kept as
`Int` results. The diagnostic provider (`TemplateLiteralDiagnosticProvider`,
whose TypeScript source is kept in `src/.github/copilot-instructions.md`) is
embedded the same way: its scanners, nested-literal resolver and validator
are transcribed branch for branch from that source.
-/

/-- The backtick character, code point 96. -/
def backtick : Char := Char.ofNat 96

/-- The backslash character, code point 92. -/
def backslashChar : Char := Char.ofNat 92

/-- The opening curly brace character, code point 123. -/
def openBrace : Char := Char.ofNat 123

/-- The closing curly brace character, code point 125. -/
def closeBrace : Char := Char.ofNat 125

/-- The dollar sign character. -/
def dollar : Char := '$'

/-- The double-quote character, code point 34. -/
def quoteD : Char := Char.ofNat 34

/-- The single-quote character, code point 39. -/
def quoteS : Char := Char.ofNat 39

/-- State of the `findClosingBacktick` loop of `src/foldingProvider.ts`:
current index `i`, the template depth counter (starts at 1 for the literal
being scanned), and the string-tracking fields `inString` / `stringChar`
(the empty-string sentinel for `stringChar` is modelled as `none`). -/
structure FcbState where
  i : Nat
  depth : Int
  inString : Bool
  stringChar : Option Char
deriving Repr, DecidableEq

/-- One iteration of the `while` loop of `findClosingBacktick`
(`src/foldingProvider.ts`).  `Sum.inl r` models the early `return i`;
`Sum.inr s` is the state at the next iteration.  The body is transcribed
branch for branch: the unconditional `prevChar === '\\'` skip, the
quote toggling, and the backtick / `${` / `}` handling guarded by
`!inString` (using the just-updated `inString`, as in the source). -/
def fcbStep (text : List Char) (s : FcbState) : Sum Nat FcbState :=
  let c := text.getD s.i ' '
  let prev := if 0 < s.i then text.getD (s.i - 1) ' ' else ' '
  if prev = backslashChar then Sum.inr { s with i := s.i + 1 }
  else
    let inString2 :=
      if s.inString = false ∧ (c = quoteD ∨ c = quoteS) then true
      else if s.inString = true ∧ some c = s.stringChar then false
      else s.inString
    let stringChar2 :=
      if s.inString = false ∧ (c = quoteD ∨ c = quoteS) then some c
      else if s.inString = true ∧ some c = s.stringChar then none
      else s.stringChar
    if inString2 = false then
      if c = backtick then
        if s.depth - 1 = 0 then Sum.inl s.i
        else Sum.inr { s with i := s.i + 1, depth := s.depth - 1,
                              inString := inString2, stringChar := stringChar2 }
      else if c = dollar ∧ s.i + 1 < text.length ∧ text.getD (s.i + 1) ' ' = openBrace then
        Sum.inr { s with i := s.i + 2, depth := s.depth + 1,
                         inString := inString2, stringChar := stringChar2 }
      else if c = closeBrace ∧ 1 < s.depth then
        Sum.inr { s with i := s.i + 1, depth := s.depth - 1,
                         inString := inString2, stringChar := stringChar2 }
      else Sum.inr { s with i := s.i + 1, inString := inString2, stringChar := stringChar2 }
    else Sum.inr { s with i := s.i + 1, inString := inString2, stringChar := stringChar2 }

/-- Iterates `fcbStep` under the loop condition
`i < text.length && depth > 0`; falling out of the loop models `return -1`
(here `none`).  Fuel `text.length + 1` is always sufficient. -/
def fcbAux (text : List Char) : Nat → FcbState → Option Nat
  | 0, _ => none
  | fuel + 1, s =>
    if s.i < text.length ∧ 0 < s.depth then
      match fcbStep text s with
      | Sum.inl r => some r
      | Sum.inr s2 => fcbAux text fuel s2
    else none

/-- `findClosingBacktick(text, startPos)` of `src/foldingProvider.ts`,
with the found-index / not-found distinction as an `Option`. -/
def findClosingBacktickNat (text : List Char) (startPos : Nat) : Option Nat :=
  fcbAux text (text.length + 1) ⟨startPos, 1, false, none⟩

/-- `findClosingBacktick` with the source's `-1` sentinel (`Int` result, as
the JavaScript function returns a number). -/
def findClosingBacktick (text : List Char) (startPos : Nat) : Int :=
  match findClosingBacktickNat text startPos with
  | some i => (i : Int)
  | none => -1

/-- State of the scanning loop of `isInsideComment` (`src/utils.ts`). -/
structure CommentScanState where
  i : Nat
  inComment : Bool
  inString : Bool
  inTemplateString : Bool
  templateDepth : Int
  stringChar : Option Char
deriving Repr, DecidableEq

/-- One iteration of the `while` loop of `isInsideComment`
(`src/utils.ts`).  Every taken branch of the source ends in `continue`, so
the body is an if-chain; each condition below carries the guards of its
enclosing blocks (`!inComment && !inTemplateString`, `!inComment && !inString`,
`!inString`).  The backslash branch consumes two characters
(`i += 2`), so the character after a backslash inside a string or template
string is never examined. -/
def commentStep (text : List Char) (s : CommentScanState) : CommentScanState :=
  let c := text.getD s.i ' '
  let next := text.get? (s.i + 1)
  if c = backslashChar ∧ (s.inString = true ∨ s.inTemplateString = true) then
    { s with i := s.i + 2 }
  else if s.inComment = false ∧ s.inTemplateString = false ∧ s.inString = false
          ∧ (c = quoteD ∨ c = quoteS) then
    { s with inString := true, stringChar := some c, i := s.i + 1 }
  else if s.inComment = false ∧ s.inTemplateString = false ∧ s.inString = true
          ∧ some c = s.stringChar then
    { s with inString := false, i := s.i + 1 }
  else if s.inComment = false ∧ s.inString = false ∧ c = backtick then
    if s.inTemplateString = true then
      { s with inTemplateString := false, templateDepth := 0, i := s.i + 1 }
    else
      { s with inTemplateString := true, i := s.i + 1 }
  else if s.inComment = false ∧ s.inString = false ∧ s.inTemplateString = true
          ∧ c = dollar ∧ next = some openBrace then
    { s with templateDepth := s.templateDepth + 1, i := s.i + 2 }
  else if s.inComment = false ∧ s.inString = false ∧ s.inTemplateString = true
          ∧ c = closeBrace ∧ 0 < s.templateDepth then
    { s with templateDepth := s.templateDepth - 1, i := s.i + 1 }
  else if s.inString = false ∧ c = '/' ∧ next = some '*' then
    { s with inComment := true, i := s.i + 2 }
  else if s.inString = false ∧ c = '*' ∧ next = some '/' then
    { s with inComment := false, i := s.i + 2 }
  else { s with i := s.i + 1 }

/-- Iterates `commentStep` over the prefix, returning the final `inComment`. -/
def commentAux (text : List Char) : Nat → CommentScanState → Bool
  | 0, s => s.inComment
  | fuel + 1, s =>
    if s.i < text.length then commentAux text fuel (commentStep text s)
    else s.inComment

/-- `isInsideComment(text, position)` of `src/utils.ts`: scans the prefix
`text.substring(0, position)` from offset 0 and reports whether the scan ends
inside a block comment. -/
def isInsideComment (text : List Char) (position : Nat) : Bool :=
  let beforeText := text.take position
  commentAux beforeText (beforeText.length + 1) ⟨0, false, false, false, 0, none⟩

/-- State of the scanning loop of `extractTemplateContent` in the
diagnostic provider (`src/.github/copilot-instructions.md`): index,
interpolation/brace depth, and the string / nested-template tracking
fields (the empty-string sentinel for `stringChar` is modelled as
`none`). -/
structure EtcState where
  i : Nat
  depth : Int
  inString : Bool
  inNestedTemplate : Bool
  stringChar : Option Char
deriving Repr, DecidableEq

/-- One iteration of the `while` loop of `extractTemplateContent`
(diagnostic provider).  `Sum.inl r` models the
`return text.substring(startPos, i)` at the closing backtick; `Sum.inr` is
the state of the next iteration.  Transcribed branch for branch: the escape
skip applies only inside strings or nested templates; quotes toggle only at
`depth > 0` outside nested templates; a backtick at `depth > 0` outside
strings toggles the nested-template flag; `${` outside strings and nested
templates is consumed as a two-character unit raising the depth; bare
braces outside strings and nested templates raise the depth, or lower it
only when it is positive — this branch has no `continue`, so the
closing-backtick test follows it within the same iteration. -/
def etcStep (text : List Char) (s : EtcState) : Sum Nat EtcState :=
  let char := text.getD s.i ' '
  let nextChar := text.get? (s.i + 1)
  let prevChar := if 0 < s.i then text.getD (s.i - 1) ' ' else ' '
  if prevChar = backslashChar ∧ (s.inString = true ∨ s.inNestedTemplate = true) then
    Sum.inr { s with i := s.i + 1 }
  else if 0 < s.depth ∧ s.inNestedTemplate = false ∧ s.inString = false
          ∧ (char = quoteD ∨ char = quoteS) then
    Sum.inr { s with inString := true, stringChar := some char, i := s.i + 1 }
  else if 0 < s.depth ∧ s.inNestedTemplate = false ∧ s.inString = true
          ∧ some char = s.stringChar then
    Sum.inr { s with inString := false, i := s.i + 1 }
  else if 0 < s.depth ∧ s.inString = false ∧ char = backtick then
    Sum.inr { s with inNestedTemplate := !s.inNestedTemplate, i := s.i + 1 }
  else if s.inString = false ∧ s.inNestedTemplate = false ∧ char = dollar
          ∧ nextChar = some openBrace then
    Sum.inr { s with depth := s.depth + 1, i := s.i + 2 }
  else
    let depth2 :=
      if s.inString = false ∧ s.inNestedTemplate = false then
        if char = openBrace then s.depth + 1
        else if char = closeBrace then (if 0 < s.depth then s.depth - 1 else s.depth)
        else s.depth
      else s.depth
    if char = backtick ∧ depth2 = 0 ∧ s.inNestedTemplate = false then Sum.inl s.i
    else Sum.inr { s with depth := depth2, i := s.i + 1 }

/-- Iterates `etcStep` under the loop condition `i < text.length`; running
off the end models the `return null` for unclosed templates. -/
def etcAux (text : List Char) : Nat → EtcState → Option Nat
  | 0, _ => none
  | fuel + 1, s =>
    if s.i < text.length then
      match etcStep text s with
      | Sum.inl r => some r
      | Sum.inr s2 => etcAux text fuel s2
    else none

/-- Offset of the closing backtick found by the scan of
`extractTemplateContent` — the `i` of its
`return text.substring(startPos, i)`. -/
def extractTemplateEnd (text : List Char) (startPos : Nat) : Option Nat :=
  etcAux text (text.length + 1) ⟨startPos, 0, false, false, none⟩

/-- `extractTemplateContent(text, startPos)` of the diagnostic provider
(`src/.github/copilot-instructions.md`): the content between `startPos`
and the closing backtick its scan finds, or `none` for an unclosed
template. -/
def extractTemplateContent (text : List Char) (startPos : Nat) : Option (List Char) :=
  match extractTemplateEnd text startPos with
  | some e => some ((text.take e).drop startPos)
  | none => none

/-- State of the inner brace-counting loop of
`replaceInterpolationsWithPlaceholders` (diagnostic provider). -/
structure RipwpState where
  i : Nat
  depth : Int
  inString : Bool
  inTemplate : Bool
  stringChar : Option Char
deriving Repr, DecidableEq

/-- One iteration of the inner loop of
`replaceInterpolationsWithPlaceholders`: the escape branch consumes the
backslash and its successor as a unit inside strings and templates; quote
toggling (outside templates) and backtick toggling (outside strings, on
the just-updated string flag) carry no `continue`, after which braces are
counted outside strings and templates.  `Sum.inl r` models the `break` at
the matching close brace (depth reaching 0), with `r` that brace's
index. -/
def ripwpStep (text : List Char) (s : RipwpState) : Sum Nat RipwpState :=
  let char := text.getD s.i ' '
  if char = backslashChar ∧ (s.inString = true ∨ s.inTemplate = true) then
    Sum.inr { s with i := s.i + 2 }
  else
    let inString2 :=
      if s.inTemplate = false ∧ s.inString = false ∧ (char = quoteD ∨ char = quoteS) then true
      else if s.inTemplate = false ∧ s.inString = true ∧ some char = s.stringChar then false
      else s.inString
    let stringChar2 :=
      if s.inTemplate = false ∧ s.inString = false ∧ (char = quoteD ∨ char = quoteS) then
        some char
      else s.stringChar
    let inTemplate2 :=
      if inString2 = false ∧ char = backtick then !s.inTemplate else s.inTemplate
    if inString2 = false ∧ inTemplate2 = false ∧ char = openBrace then
      Sum.inr { s with depth := s.depth + 1, i := s.i + 1,
                       inString := inString2, inTemplate := inTemplate2,
                       stringChar := stringChar2 }
    else if inString2 = false ∧ inTemplate2 = false ∧ char = closeBrace then
      if s.depth - 1 = 0 then Sum.inl s.i
      else Sum.inr { s with depth := s.depth - 1, i := s.i + 1,
                            inString := inString2, inTemplate := inTemplate2,
                            stringChar := stringChar2 }
    else Sum.inr { s with i := s.i + 1, inString := inString2,
                          inTemplate := inTemplate2, stringChar := stringChar2 }

/-- Iterates `ripwpStep` under the loop condition
`i < result.length && depth > 0`; `some` is the matching close brace. -/
def ripwpInnerAux (text : List Char) : Nat → RipwpState → Option Nat
  | 0, _ => none
  | fuel + 1, s =>
    if s.i < text.length ∧ 0 < s.depth then
      match ripwpStep text s with
      | Sum.inl r => some r
      | Sum.inr s2 => ripwpInnerAux text fuel s2
    else none

/-- The outer loop of `replaceInterpolationsWithPlaceholders`: at each
`${`, the matching close brace is found with the inner scan and the whole
span, delimiters included, is replaced by the string `placeholder`;
scanning resumes just after the replacement.  When the inner scan runs off
the end the remaining text is left as is, as the source's cursor has then
reached the end. -/
def ripwpAux : Nat → List Char → Nat → List Char
  | 0, result, _ => result
  | fuel + 1, result, i =>
    if i < result.length then
      if result.getD i ' ' = dollar ∧ result.get? (i + 1) = some openBrace then
        match ripwpInnerAux result (result.length + 1) ⟨i + 2, 1, false, false, none⟩ with
        | some j =>
          ripwpAux fuel (result.take i ++ "placeholder".toList ++ result.drop (j + 1))
            (i + "placeholder".toList.length)
        | none => result
      else ripwpAux fuel result (i + 1)
    else result

/-- `replaceInterpolationsWithPlaceholders(html)` of the diagnostic
provider. -/
def replaceInterpolationsWithPlaceholders (html : List Char) : List Char :=
  ripwpAux (html.length + 1) html 0

/-- Does the text contain a `${` sequence (`includes("${")`)? -/
def hasInterp : List Char → Bool
  | [] => false
  | [_] => false
  | a :: b :: rest => (a = dollar && b = openBrace) || hasInterp (b :: rest)

/-- Whitespace for the regex class `\s` (the common ASCII members; the
source patterns only ever need spaces, tabs and newlines). -/
def wsChar (c : Char) : Bool :=
  c = ' ' || c = '\t' || c = '\n' || c = '\r' || c = '\x0b' || c = '\x0c'

/-- Word character for the regex assertion `\b` (`[A-Za-z0-9_]`). -/
def isWordChar (c : Char) : Bool := c.isAlpha || c.isDigit || c = '_'

/-- First character of the identifier class `[a-zA-Z_$]`. -/
def identStartChar (c : Char) : Bool := c.isAlpha || c = '_' || c = dollar

/-- Continuation character of the identifier class `[a-zA-Z0-9_$]`. -/
def identChar (c : Char) : Bool := c.isAlpha || c.isDigit || c = '_' || c = dollar

/-- Index of the first position at or after `i` whose character fails `p`
(greedy character-class repetition). -/
def scanWhile (text : List Char) (p : Char → Bool) : Nat → Nat → Nat
  | 0, i => i
  | fuel + 1, i =>
    if i < text.length ∧ p (text.getD i ' ') = true then scanWhile text p fuel (i + 1)
    else i

/-- `scanWhile` with sufficient fuel. -/
def scanWhileFrom (text : List Char) (p : Char → Bool) (i : Nat) : Nat :=
  scanWhile text p (text.length + 1) i

/-- Does the literal string `lit` occur in `text` starting exactly at `i`? -/
def matchLit (text lit : List Char) (i : Nat) : Bool :=
  (text.drop i).take lit.length = lit

/-- First alternative of the leader regex of `src/foldingProvider.ts`
(`(?:${tagPattern})\s*` followed by a backtick): one of the configured
leader names at `i`, greedy whitespace, then a backtick.  Alternatives are
tried in the order of the configured list, as regex alternation does.
Returns the exclusive end of the whole match (after the backtick). -/
def matchAlt1 (pats : List (List Char)) (text : List Char) (i : Nat) : Option Nat :=
  pats.findSome? fun p =>
    if matchLit text p i then
      let k := scanWhileFrom text wsChar (i + p.length)
      if k < text.length ∧ text.getD k ' ' = backtick then some (k + 1) else none
    else none

/-- Second alternative of the leader regex
(`\b[a-zA-Z_$][a-zA-Z0-9_$]*\s*/\*\s*html\s*\*/\s*` followed by a backtick):
a word boundary, an identifier, then a `/* html */` annotation and a
backtick, with greedy whitespace between the pieces. -/
def matchAlt2 (text : List Char) (i : Nat) : Option Nat :=
  let prevW := if 0 < i then isWordChar (text.getD (i - 1) ' ') else false
  let curW := if i < text.length then isWordChar (text.getD i ' ') else false
  if i < text.length ∧ prevW ≠ curW ∧ identStartChar (text.getD i ' ') = true then
    let j := scanWhileFrom text identChar (i + 1)
    let k1 := scanWhileFrom text wsChar j
    if matchLit text ['/', '*'] k1 then
      let k2 := scanWhileFrom text wsChar (k1 + 2)
      if matchLit text ['h', 't', 'm', 'l'] k2 then
        let k3 := scanWhileFrom text wsChar (k2 + 4)
        if matchLit text ['*', '/'] k3 then
          let k4 := scanWhileFrom text wsChar (k3 + 2)
          if k4 < text.length ∧ text.getD k4 ' ' = backtick then some (k4 + 1) else none
        else none
      else none
    else none
  else none

/-- The full leader regex at position `i`: the first alternative is
preferred, as in regex alternation. -/
def matchLeaderAt (pats : List (List Char)) (text : List Char) (i : Nat) : Option Nat :=
  match matchAlt1 pats text i with
  | some e => some e
  | none => matchAlt2 text i

/-- All non-overlapping leader matches left to right, as produced by
repeated `regex.exec` with the `g` flag in `provideFoldingRanges`
(`src/foldingProvider.ts`).  Each entry is `(index, length)`. -/
def execAllAux (pats : List (List Char)) (text : List Char) : Nat → Nat → List (Nat × Nat)
  | 0, _ => []
  | fuel + 1, p =>
    if p < text.length then
      match matchLeaderAt pats text p with
      | some e => (p, e - p) :: execAllAux pats text fuel e
      | none => execAllAux pats text fuel (p + 1)
    else []

/-- `execAll pats text` lists every leader match of the document. -/
def execAll (pats : List (List Char)) (text : List Char) : List (Nat × Nat) :=
  execAllAux pats text (text.length + 1) 0

/-- The default configured leader names `['html', 'dom']`
(`src/foldingProvider.ts` constructor default). -/
def defaultTagPatterns : List (List Char) := ["html".toList, "dom".toList]

/-- A folding range (start line, end line), as `vscode.FoldingRange`. -/
structure FoldRange where
  startLine : Nat
  endLine : Nat
deriving Repr, DecidableEq

/-- Line number of an offset: the number of newlines strictly before it
(`document.positionAt(offset).line`). -/
def lineOf (text : List Char) (off : Nat) : Nat :=
  ((text.take off).filter (fun c => c = '\n')).length

/-- The per-literal fold-range emission decision of `provideFoldingRanges`
(`src/foldingProvider.ts`): find the closing backtick from just after the
opening backtick; skip the literal when there is none; emit a range from the
line of the tag start to the line of the closing backtick exactly when
`endLine - startLine >= 2`. -/
def foldCandidate (text : List Char) (idx len : Nat) : Option FoldRange :=
  match findClosingBacktickNat text (idx + len) with
  | none => none
  | some endPos =>
    if 2 ≤ lineOf text endPos - lineOf text idx then
      some ⟨lineOf text idx, lineOf text endPos⟩
    else none

/-- The match loop of `provideFoldingRanges`: walks the leader matches,
skipping a match whose content start position was already processed, and
collects the emitted ranges in order. -/
def foldLoop (text : List Char) : List (Nat × Nat) → List Nat → List FoldRange → List FoldRange
  | [], _, acc => acc
  | (idx, len) :: rest, processed, acc =>
    if processed.contains (idx + len) then foldLoop text rest processed acc
    else
      match foldCandidate text idx len with
      | some r => foldLoop text rest ((idx + len) :: processed) (acc ++ [r])
      | none => foldLoop text rest ((idx + len) :: processed) acc

/-- Strict containment of fold ranges, as tested by the overlap filter of
`provideFoldingRanges` (the source's `index !== otherIndex` guard is
subsumed by the strictness disjunct, which no range satisfies against
itself). -/
def rangeContains (o r : FoldRange) : Bool :=
  decide (o.startLine ≤ r.startLine ∧ r.endLine ≤ o.endLine
    ∧ (o.startLine < r.startLine ∨ r.endLine < o.endLine))

/-- `provideFoldingRanges` of `src/foldingProvider.ts` (without the editor
cancellation token, which only truncates the result): all candidate ranges,
then the overlap filter keeping only ranges not strictly contained in
another. -/
def provideFoldingRanges (pats : List (List Char)) (text : List Char) : List FoldRange :=
  let all := foldLoop text (execAll pats text) [] []
  all.filter (fun r => ! all.any (fun o => rangeContains o r))

/-- Third alternative of the diagnostics leader regex of the diagnostic
provider (`/\*\s*html\s*\*/\s*` followed by a backtick): a bare
`/* html */` annotation.  The diagnostics regex has this alternative in
addition to the two shared with the folding provider. -/
def matchAlt3 (text : List Char) (i : Nat) : Option Nat :=
  if matchLit text ['/', '*'] i then
    let k2 := scanWhileFrom text wsChar (i + 2)
    if matchLit text ['h', 't', 'm', 'l'] k2 then
      let k3 := scanWhileFrom text wsChar (k2 + 4)
      if matchLit text ['*', '/'] k3 then
        let k4 := scanWhileFrom text wsChar (k3 + 2)
        if k4 < text.length ∧ text.getD k4 ' ' = backtick then some (k4 + 1) else none
      else none
    else none
  else none

/-- The diagnostics leader regex of `updateDiagnostics` / `validateHTML`
(diagnostic provider) at position `i`: configured leaders, identifier with
`/* html */` annotation, or the bare annotation — preferred in that
alternation order. -/
def matchLeaderAt3 (pats : List (List Char)) (text : List Char) (i : Nat) : Option Nat :=
  match matchAlt1 pats text i with
  | some e => some e
  | none =>
    match matchAlt2 text i with
    | some e => some e
    | none => matchAlt3 text i

/-- All non-overlapping matches of the diagnostics leader regex, left to
right, as produced by repeated `exec` with the `g` flag. -/
def execAll3Aux (pats : List (List Char)) (text : List Char) : Nat → Nat → List (Nat × Nat)
  | 0, _ => []
  | fuel + 1, p =>
    if p < text.length then
      match matchLeaderAt3 pats text p with
      | some e => (p, e - p) :: execAll3Aux pats text fuel e
      | none => execAll3Aux pats text fuel (p + 1)
    else []

/-- `execAll3 pats text` lists every diagnostics leader match of the
text.  Each entry is `(index, length)`. -/
def execAll3 (pats : List (List Char)) (text : List Char) : List (Nat × Nat) :=
  execAll3Aux pats text (text.length + 1) 0

/-- A tag token produced by the validator's generic tag pattern
`<\/?([a-zA-Z][a-zA-Z0-9]*)[^>]*>` (diagnostic provider,
`src/.github/copilot-instructions.md`): case-preserved name, span
`[offset, stop)` in the scanned text, whether the match starts with `</`,
and whether it ends with `/>`. -/
structure TagToken where
  name : List Char
  offset : Nat
  stop : Nat
  close : Bool
  selfClose : Bool
deriving Repr, DecidableEq

/-- Tag-name continuation characters (`[a-zA-Z0-9]`). -/
def nameChar (c : Char) : Bool := c.isAlpha || c.isDigit

/-- Index of the first `>` at or after `i`. -/
def findGt (text : List Char) : Nat → Nat → Option Nat
  | 0, _ => none
  | fuel + 1, i =>
    if i < text.length then
      if text.getD i ' ' = '>' then some i else findGt text fuel (i + 1)
    else none

/-- `findGt` with sufficient fuel. -/
def findGtFrom (text : List Char) (i : Nat) : Option Nat :=
  findGt text (text.length + 1) i

/-- The tag scan of `validateHTML` (diagnostic provider): at each `<`, an
optional `/`, then an alphabetic-initial name of letters and digits, then
`[^>]*` up to the first `>`.  Positions where the pattern cannot begin are
passed over; a candidate without any later `>` ends the scan, as no
position after it can complete the pattern either.  A match whose `>` is
immediately preceded by `/` ends with `/>` (`fullMatch.endsWith("/>")`). -/
def tokenizeAux (text : List Char) : Nat → Nat → List TagToken
  | 0, _ => []
  | fuel + 1, i =>
    if i < text.length then
      if text.getD i ' ' = '<' ∧ text.getD (i + 1) ' ' = '/'
          ∧ (text.getD (i + 2) ' ').isAlpha = true then
        let j := scanWhileFrom text nameChar (i + 2)
        match findGtFrom text j with
        | some k =>
          ⟨(text.take j).drop (i + 2), i, k + 1, true,
            decide (0 < k ∧ text.getD (k - 1) ' ' = '/')⟩ :: tokenizeAux text fuel (k + 1)
        | none => []
      else if text.getD i ' ' = '<' ∧ (text.getD (i + 1) ' ').isAlpha = true then
        let j := scanWhileFrom text nameChar (i + 1)
        match findGtFrom text j with
        | some k =>
          ⟨(text.take j).drop (i + 1), i, k + 1, false,
            decide (0 < k ∧ text.getD (k - 1) ' ' = '/')⟩ :: tokenizeAux text fuel (k + 1)
        | none => []
      else tokenizeAux text fuel (i + 1)
    else []

/-- Tokenize a cleaned HTML text for validation. -/
def tokenizeHTML (text : List Char) : List TagToken :=
  tokenizeAux text (text.length + 1) 0

/-- Diagnostic severity (`vscode.DiagnosticSeverity`). -/
inductive Severity
  | error
  | warning
deriving Repr, DecidableEq

/-- The three diagnostic messages of the validator, modelled by constructor
with the interpolated tag names as fields:
`Unmatched closing tag </name>`;
`Expected closing tag </expected> but found </found>`;
`Unclosed tag <name>`. -/
inductive DiagMsg
  | unmatchedClosing (name : List Char)
  | mismatchedClosing (expected found : List Char)
  | unclosedTag (name : List Char)
deriving Repr, DecidableEq

/-- A diagnostic: range `[start, stop)` in document offsets, message,
severity. -/
structure Diagnostic where
  start : Nat
  stop : Nat
  message : DiagMsg
  severity : Severity
deriving Repr, DecidableEq

/-- The `selfClosingTags` list of `isSelfClosingTag` (diagnostic
provider). -/
def voidElements : List (List Char) :=
  ["area", "base", "br", "col", "embed", "hr", "img", "input", "link", "meta",
   "param", "source", "track", "wbr"].map String.toList

/-- `isSelfClosingTag(tagName)` of the diagnostic provider: membership of
the lowercased name in the void-element list
(`selfClosingTags.includes(tagName.toLowerCase())`) — the check is
case-insensitive. -/
def isSelfClosingTag (tagName : List Char) : Bool :=
  decide (tagName.map Char.toLower ∈ voidElements)

/-- The Error diagnostic for a closing tag met with an empty stack: range
from the tag's document position over the full match. -/
def mkUnmatched (offset : Nat) (t : TagToken) : Diagnostic :=
  ⟨offset + t.offset, offset + t.offset + (t.stop - t.offset),
    DiagMsg.unmatchedClosing t.name, Severity.error⟩

/-- The Error diagnostic for a closing tag that mismatches the stack top. -/
def mkMismatched (offset : Nat) (expected : List Char) (t : TagToken) : Diagnostic :=
  ⟨offset + t.offset, offset + t.offset + (t.stop - t.offset),
    DiagMsg.mismatchedClosing expected t.name, Severity.error⟩

/-- The Warning diagnostic for a stack entry left open at the end of the
scan: range from the recorded document position over `tag.length + 2`
characters. -/
def mkUnclosed (entry : List Char × Nat) : Diagnostic :=
  ⟨entry.2, entry.2 + entry.1.length + 2, DiagMsg.unclosedTag entry.1, Severity.warning⟩

/-- The stack walk of `validateHTML` (diagnostic provider).  A closing tag
at an empty stack raises `Unmatched closing tag`; a closing tag otherwise
pops and raises the mismatch Error exactly when the popped name differs
from its own (case-sensitive list equality, `last.tag !== tagName`); an
opening tag that neither ends in `/>` nor names a void element
(case-insensitively, via `isSelfClosingTag`) is pushed with its document
position `offset + match.index`; afterwards every remaining entry yields
an `Unclosed tag` Warning, oldest entry first (`for (const unclosed of
stack)` iterates the array bottom-up). -/
def validateTokens (offset : Nat) : List TagToken → List (List Char × Nat) → List Diagnostic
  | [], stack => (stack.reverse).map mkUnclosed
  | t :: ts, stack =>
    if t.close = true then
      match stack with
      | [] => mkUnmatched offset t :: validateTokens offset ts []
      | top :: rest =>
        if top.1 = t.name then validateTokens offset ts rest
        else mkMismatched offset top.1 t :: validateTokens offset ts rest
    else if t.selfClose = true ∨ isSelfClosingTag t.name = true then
      validateTokens offset ts stack
    else validateTokens offset ts ((t.name, offset + t.offset) :: stack)

/-- The closing-tag tokens met while the open-tag stack is empty, tracked
by stack depth: an independent characterisation of the inputs of the
`Unmatched closing tag` branch of the walk. -/
def emptyStackCloses : List TagToken → Nat → List TagToken
  | [], _ => []
  | t :: ts, d =>
    if t.close = true then
      match d with
      | 0 => t :: emptyStackCloses ts 0
      | d2 + 1 => emptyStackCloses ts d2
    else if t.selfClose = true ∨ isSelfClosingTag t.name = true then
      emptyStackCloses ts d
    else emptyStackCloses ts (d + 1)

/-- Does this diagnostic carry the `Unmatched closing tag` message? -/
def isUnmatchedDiag (d : Diagnostic) : Bool :=
  match d.message with
  | DiagMsg.unmatchedClosing _ => true
  | _ => false

/-- Valid, fully-closed HTML at token level: every opening tag that does
not use self-closing syntax and does not name a void element (per the
program's case-insensitive `isSelfClosingTag`) is closed by a correctly
nested closing tag of the identical, case-matching name; void and
self-closing tags stand alone. -/
inductive BalancedTokens : List TagToken → Prop
  | nil : BalancedTokens []
  | voidLike (t : TagToken) (ts : List TagToken) :
      t.close = false → (t.selfClose = true ∨ isSelfClosingTag t.name = true) →
      BalancedTokens ts → BalancedTokens (t :: ts)
  | node (o c : TagToken) (inner rest : List TagToken) :
      o.close = false → o.selfClose = false → isSelfClosingTag o.name = false →
      c.close = true → c.name = o.name →
      BalancedTokens inner → BalancedTokens rest →
      BalancedTokens (o :: (inner ++ c :: rest))

/-- JavaScript `trim()`: strip leading and trailing whitespace. -/
def trimChars (s : List Char) : List Char :=
  ((s.dropWhile wsChar).reverse.dropWhile wsChar).reverse

/-- The loop of `findMatchingBrace(text, startPos)` (diagnostic provider):
naive brace counting from `startPos + 1` with initial depth 1, no string
or template awareness; `none` models the `-1` for no matching brace. -/
def findMatchingBraceAux (text : List Char) : Nat → Nat → Int → Option Nat
  | 0, _, _ => none
  | fuel + 1, i, depth =>
    if i < text.length ∧ 0 < depth then
      if text.getD i ' ' = openBrace then findMatchingBraceAux text fuel (i + 1) (depth + 1)
      else if text.getD i ' ' = closeBrace then
        if depth - 1 = 0 then some i else findMatchingBraceAux text fuel (i + 1) (depth - 1)
      else findMatchingBraceAux text fuel (i + 1) depth
    else none

/-- `findMatchingBrace(text, startPos)` of the diagnostic provider. -/
def findMatchingBrace (text : List Char) (startPos : Nat) : Option Nat :=
  findMatchingBraceAux text (text.length + 1) (startPos + 1) 1

/-- Index of the first occurrence of `c` at or after `i`
(`indexOf(c, i)`; `none` models `-1`). -/
def indexOfFrom (text : List Char) (c : Char) : Nat → Nat → Option Nat
  | 0, _ => none
  | fuel + 1, i =>
    if i < text.length then
      if text.getD i ' ' = c then some i else indexOfFrom text c fuel (i + 1)
    else none

/-- Does the hard-coded nested-template regex of `extractOuterTags`
(`/(\b[a-zA-Z_$][a-zA-Z0-9_$]*\s*\/\*\s*html\s*\*\/\s*|html|dom)\s*`/`,
diagnostic provider) match at position `i`?  The literal leaders `html`
and `dom` are hard-coded here, not taken from the configured patterns;
the annotation alternative with its trailing `\s*` and the group-external
`\s*` before the backtick coincide with `matchAlt2`'s shape. -/
def nestedTemplateMatchAt (text : List Char) (i : Nat) : Bool :=
  (matchAlt2 text i).isSome
  || (matchLit text ['h', 't', 'm', 'l'] i
      && (let k := scanWhileFrom text wsChar (i + 4)
          decide (k < text.length) && (text.getD k ' ' == backtick)))
  || (matchLit text ['d', 'o', 'm'] i
      && (let k := scanWhileFrom text wsChar (i + 3)
          decide (k < text.length) && (text.getD k ' ' == backtick)))

/-- Scan for the leftmost match position of the hard-coded nested-template
regex. -/
def nestedTemplateMatchIndexAux (text : List Char) : Nat → Nat → Option Nat
  | 0, _ => none
  | fuel + 1, p =>
    if p < text.length then
      if nestedTemplateMatchAt text p then some p
      else nestedTemplateMatchIndexAux text fuel (p + 1)
    else none

/-- `nestedTemplateRegex.exec(interpolationContent)` of `extractOuterTags`:
the index of the leftmost match, `none` when there is none. -/
def nestedTemplateMatchIndex (text : List Char) : Option Nat :=
  nestedTemplateMatchIndexAux text (text.length + 1) 0

/-- The leading-anchor opening-tag match of `extractOuterTags`
(`/^<([a-zA-Z][a-zA-Z0-9]*)[^>]*>/`): the captured name and the entire
opening-tag text, attributes included, up to and including the first
`>`. -/
def firstOpenTag (s : List Char) : Option (List Char × List Char) :=
  if s.getD 0 ' ' = '<' ∧ (s.getD 1 ' ').isAlpha = true then
    let j := scanWhileFrom s nameChar 1
    match findGtFrom s j with
    | some k => some ((s.take j).drop 1, s.take (k + 1))
    | none => none
  else none

/-- `endsWith("/>")` on an opening-tag slice (the slice always ends in `>`,
so only the second-to-last character is at issue). -/
def endsSlashGt (tag : List Char) : Bool :=
  decide (2 ≤ tag.length ∧ tag.getD (tag.length - 2) ' ' = '/')

/-- The synthetic `<T></T>` structure. -/
def mkOpenClose (T : List Char) : List Char :=
  '<' :: (T ++ ('>' :: '<' :: '/' :: (T ++ ['>'])))

/-- The fallback structure of `extractOuterTags` when no opening tag is
found: `"<span></span>"`. -/
def spanFallback : List Char := "<span></span>".toList

/-- The non-recursive tail of `extractOuterTags` (diagnostic provider): the
anchored opening-tag match on the stripped content; no match falls back to
`<span></span>`; a tag ending in `/>` is returned whole, attributes
included; otherwise the result is `<T></T>` — the source's
multiple-top-level check returns this same structure in both of its
branches. -/
def baseOuter (cleaned : List Char) : List Char :=
  match firstOpenTag cleaned with
  | none => spanFallback
  | some (T, tag) => if endsSlashGt tag = true then tag else mkOpenClose T

/-- The stripping loop of `extractOuterTags(html)` (diagnostic provider).
While the trimmed content starts with `${`: find the matching close brace
(`break` to the tail analysis when there is none); when the expression
inside holds a nested-template leader (hard-coded regex), take the literal
at the first backtick from the match index and, when its extracted content
is non-empty (JavaScript truthiness of `templateContent`), return the
recursion into that content; in every other case drop the interpolation
span and continue.  Each recursion or continuation strictly shrinks the
content, so fuel `length + 1` is sufficient. -/
def extractOuterTagsAux : Nat → List Char → List Char
  | 0, s => baseOuter (trimChars s)
  | fuel + 1, s =>
    let cleaned := trimChars s
    if cleaned.take 2 = [dollar, openBrace] then
      match findMatchingBrace cleaned 1 with
      | none => baseOuter cleaned
      | some endBrace =>
        let expr := (cleaned.take endBrace).drop 2
        match nestedTemplateMatchIndex expr with
        | some p =>
          match indexOfFrom expr backtick (expr.length + 1) p with
          | some bt =>
            match extractTemplateContent expr (bt + 1) with
            | some content =>
              if content = [] then extractOuterTagsAux fuel (cleaned.drop (endBrace + 1))
              else extractOuterTagsAux fuel content
            | none => extractOuterTagsAux fuel (cleaned.drop (endBrace + 1))
          | none => extractOuterTagsAux fuel (cleaned.drop (endBrace + 1))
        | none => extractOuterTagsAux fuel (cleaned.drop (endBrace + 1))
    else baseOuter cleaned

/-- `extractOuterTags(html)` of the diagnostic provider. -/
def extractOuterTags (s : List Char) : List Char :=
  extractOuterTagsAux (s.length + 1) s

/-- First map entry whose key equals the content, as the
`templateReplacements` lookup of `validateHTML` (duplicate contents map to
the same structure, so insertion order is immaterial). -/
def lookupContent : List (List Char × List Char) → List Char → Option (List Char)
  | [], _ => none
  | (k, v) :: rest, content => if k = content then some v else lookupContent rest content

/-- First alternative of the first group of the nested-replacement regex of
`validateHTML` (`(?:${tagPattern})\s*`, no backtick of its own): end of a
configured leader plus trailing whitespace. -/
def replAlt1 (pats : List (List Char)) (text : List Char) (i : Nat) : Option Nat :=
  pats.findSome? fun p =>
    if matchLit text p i then some (scanWhileFrom text wsChar (i + p.length)) else none

/-- Second alternative of the replacement group
(`\b[a-zA-Z_$][a-zA-Z0-9_$]*\s*/\*\s*html\s*\*/\s*`): identifier with
`/* html */` annotation, ending after the trailing whitespace. -/
def replAlt2 (text : List Char) (i : Nat) : Option Nat :=
  let prevW := if 0 < i then isWordChar (text.getD (i - 1) ' ') else false
  let curW := if i < text.length then isWordChar (text.getD i ' ') else false
  if i < text.length ∧ prevW ≠ curW ∧ identStartChar (text.getD i ' ') = true then
    let j := scanWhileFrom text identChar (i + 1)
    let k1 := scanWhileFrom text wsChar j
    if matchLit text ['/', '*'] k1 then
      let k2 := scanWhileFrom text wsChar (k1 + 2)
      if matchLit text ['h', 't', 'm', 'l'] k2 then
        let k3 := scanWhileFrom text wsChar (k2 + 4)
        if matchLit text ['*', '/'] k3 then some (scanWhileFrom text wsChar (k3 + 2))
        else none
      else none
    else none
  else none

/-- Third alternative of the replacement group (`/\*\s*html\s*\*/\s*`):
the bare annotation, ending after the trailing whitespace. -/
def replAlt3 (text : List Char) (i : Nat) : Option Nat :=
  if matchLit text ['/', '*'] i then
    let k2 := scanWhileFrom text wsChar (i + 2)
    if matchLit text ['h', 't', 'm', 'l'] k2 then
      let k3 := scanWhileFrom text wsChar (k2 + 4)
      if matchLit text ['*', '/'] k3 then some (scanWhileFrom text wsChar (k3 + 2))
      else none
    else none
  else none

/-- The first group of the nested-replacement regex at position `i`: the
end of the leader under the preferred alternative. -/
def replLeaderEnd (pats : List (List Char)) (text : List Char) (i : Nat) : Option Nat :=
  match replAlt1 pats text i with
  | some q => some q
  | none =>
    match replAlt2 text i with
    | some q => some q
    | none => replAlt3 text i

/-- One global pass of the lazy nested-replacement regex of `validateHTML`
(`(group1)([\s\S]*?)` + backtick): at each position, a leader followed
lazily by anything up to the next backtick.  When the captured span between
the leader end and that backtick is a key of the replacement map, the whole
match is replaced by the mapped outer structure; otherwise the match text
is kept.  Scanning resumes after the match; a leader with no later
backtick matches nothing, as no alternative can then complete the pattern
at that position.  Returns the rewritten text and whether any replacement
was made (`replacementsMade`). -/
def lazyReplacePass (pats : List (List Char)) (map : List (List Char × List Char))
    (text : List Char) : Nat → Nat → List Char → Bool → List Char × Bool
  | 0, _, acc, flag => (acc, flag)
  | fuel + 1, p, acc, flag =>
    if p < text.length then
      match replLeaderEnd pats text p with
      | some q =>
        match indexOfFrom text backtick (text.length + 1) q with
        | some bt =>
          match lookupContent map ((text.take bt).drop q) with
          | some outer => lazyReplacePass pats map text fuel (bt + 1) (acc ++ outer) true
          | none =>
            lazyReplacePass pats map text fuel (bt + 1)
              (acc ++ (text.take (bt + 1)).drop p) flag
        | none => lazyReplacePass pats map text fuel (p + 1) (acc ++ [text.getD p ' ']) flag
      | none => lazyReplacePass pats map text fuel (p + 1) (acc ++ [text.getD p ' ']) flag
    else (acc, flag)

/-- The bounded replacement loop of `validateHTML`: passes of the lazy
replacement, repeated while replacements keep being made, at most 20
times. -/
def replaceNestedLoop (pats : List (List Char)) (map : List (List Char × List Char)) :
    Nat → List Char → List Char
  | 0, s => s
  | fuel + 1, s =>
    match lazyReplacePass pats map s (s.length + 1) 0 [] false with
    | (s2, true) => replaceNestedLoop pats map fuel s2
    | (s2, false) => s2

/-- `validateHTML(html, offset, document, diagnostics)` of the diagnostic
provider (`src/.github/copilot-instructions.md`), with the accumulating
`diagnostics` array as the result list and the document text passed for
the comment checks.  Discovery: every diagnostics-leader match of the
content whose template content extracts (`startPos` is the opening
backtick, at match index plus match length minus one) yields a nested
record of content, absolute offset `offset + startPos + 1`, and outer
structure.  Each nested literal validates recursively first, unless its
offset lies inside a comment of the whole document.  For the parent pass
the content is rewritten by the bounded lazy-replacement loop (only when
nested templates were found), interpolations are substituted when a `${`
remains, and the cleaned text is walked with the tag-balance stack.  The
recursion into a nested literal strictly shrinks the content, so fuel
`length + 1` is sufficient. -/
def validateHTML (pats : List (List Char)) (docText : List Char) :
    Nat → List Char → Nat → List Diagnostic
  | 0, _, _ => []
  | fuel + 1, html, offset =>
    let nested := (execAll3 pats html).filterMap (fun m =>
      match extractTemplateContent html (m.1 + m.2) with
      | some content => some (content, offset + m.1 + m.2, extractOuterTags content)
      | none => none)
    let nestedDiags := nested.flatMap (fun n =>
      if isInsideComment docText n.2.1 = true then []
      else validateHTML pats docText fuel n.1 n.2.1)
    let cleaned1 :=
      if nested = [] then html
      else replaceNestedLoop pats (nested.map (fun n => (n.1, n.2.2))) 20 html
    let cleaned2 :=
      if hasInterp cleaned1 = true then replaceInterpolationsWithPlaceholders cleaned1
      else cleaned1
    nestedDiags ++ validateTokens offset (tokenizeHTML cleaned2) []

/-- `validateHTML` with its sufficient fuel. -/
def validateHTMLTop (pats : List (List Char)) (docText html : List Char)
    (offset : Nat) : List Diagnostic :=
  validateHTML pats docText (html.length + 1) html offset

/-- The confirmed literal starts of `updateDiagnostics` (diagnostic
provider): every diagnostics-leader match of the document text whose
opening backtick — the last character of the match, at index plus length
minus one — is not inside a block comment (`isInsideComment` of
`src/utils.ts`). -/
def confirmedLeaderMatches (pats : List (List Char)) (text : List Char) :
    List (Nat × Nat) :=
  (execAll3 pats text).filter (fun m => ! isInsideComment text (m.1 + m.2 - 1))

/-- The per-document diagnostics pass of `updateDiagnostics` (diagnostic
provider): extract each confirmed literal's content and validate it at the
offset just after its opening backtick, merging the diagnostics in match
order; an unterminated literal contributes nothing. -/
def updateDiagnosticsModel (pats : List (List Char)) (text : List Char) :
    List Diagnostic :=
  (confirmedLeaderMatches pats text).flatMap (fun m =>
    match extractTemplateContent text (m.1 + m.2) with
    | some content => validateHTMLTop pats text content (m.1 + m.2)
    | none => [])

/-- Literal content with an escaped backtick: `a\` + backtick + `b`,
closed by a backtick. -/
def exEscaped : List Char := ['a', backslashChar, backtick, 'b', backtick]

/-- Literal content holding a nested literal inside an interpolation:
`${ html`x` }` closed by a backtick. -/
def exNested : List Char :=
  [dollar, openBrace, ' ', 'h', 't', 'm', 'l', backtick, 'x', backtick, ' ', closeBrace, backtick]

/-- Literal content with a close brace inside a string literal within an
interpolation: `${"}"}` closed by a backtick. -/
def exBraces : List Char := [dollar, openBrace, quoteD, closeBrace, quoteD, closeBrace, backtick]

/-- Two backslashes (an escaped backslash) followed by the closing
backtick of a literal. -/
def exDoubleBackslash : List Char := [backslashChar, backslashChar, backtick]

/-- A single-quoted string containing an escaped backslash, then the
opening of a block comment: `'\\'/*`. -/
def exQuoteEsc : List Char := [quoteS, backslashChar, backslashChar, quoteS, '/', '*']

/-- A multi-line `dom`-literal that is entirely commented out:
`/* dom` + backtick + newline-separated content + backtick + ` */`. -/
def exCommentText : List Char :=
  "/* dom".toList ++ [backtick] ++ "\nx\ny\n".toList ++ [backtick] ++ " */".toList

/-- A `dom`-literal spanning three source lines. -/
def exThreeLine : List Char := "dom".toList ++ [backtick] ++ "\na\n".toList ++ [backtick]

/-- A `dom`-literal spanning exactly two source lines. -/
def exTwoLine : List Char := "dom".toList ++ [backtick] ++ "\n".toList ++ [backtick]

/-- Fully closed, correctly nested HTML content. -/
def exBalancedTokens : List Char := "<ul><li>x</li></ul>".toList

/-- An opening `div` closed by `</DIV>`, differing only in letter case. -/
def exCaseMismatch : List Char := "<div></DIV>".toList

/-- A lone lowercase void element. -/
def exBrLower : List Char := "<br>".toList

/-- A lone uppercase `<BR>`, not in the void set under case-sensitive
matching. -/
def exBrUpper : List Char := "<BR>".toList

/-- Nested-literal content whose first top-level element is a list item. -/
def exListItem : List Char := "<li>a</li>".toList

/-- Nested-literal content whose leading interpolation contains a
leader+backtick literal: `${cond ? html` + backtick + `<li>a</li>` +
backtick + ` : 0}`. -/
def exCondContent : List Char :=
  [dollar, openBrace] ++ "cond ? html".toList ++ [backtick] ++ "<li>a</li>".toList
    ++ [backtick] ++ " : 0".toList ++ [closeBrace]

/-- A mixed-case `Br` element, opened and closed: void case-insensitively,
so nothing is pushed for it. -/
def exBrMixed : List Char := "<Br></Br>".toList

set_option maxHeartbeats 1000000 in
/-- Every `Sum.inl` result of a `findClosingBacktick` loop iteration is the
current index, whose character is a backtick (the source's early
`return i` fires only in the backtick branch). -/
theorem fcbStep_inl (text : List Char) (s : FcbState) (r : Nat)
    (h : fcbStep text s = Sum.inl r) : r = s.i ∧ text.getD s.i ' ' = backtick := by
  simp only [fcbStep] at h
  repeat' split at h
  all_goals simp_all

set_option maxHeartbeats 1000000 in
/-- Every continuing iteration of the `findClosingBacktick` loop strictly
advances the index. -/
theorem fcbStep_inr (text : List Char) (s s2 : FcbState)
    (h : fcbStep text s = Sum.inr s2) : s.i < s2.i := by
  simp only [fcbStep] at h
  repeat' split at h
  all_goals (try (injection h with h2))
  all_goals (try subst h2)
  all_goals (try simp_all)

set_option maxHeartbeats 1000000 in
/-- Continuing iterations of the `findClosingBacktick` loop keep the depth
counter at least 1, i.e. the interpolation depth `depth - 1` at least 0. -/
theorem fcbStep_inr_depth (text : List Char) (s s2 : FcbState)
    (hd : 1 ≤ s.depth) (h : fcbStep text s = Sum.inr s2) : 0 ≤ s2.depth - 1 := by
  simp only [fcbStep] at h
  repeat' split at h
  all_goals (try (injection h with h2))
  all_goals (try subst h2)
  all_goals (try simp_all)
  all_goals omega

/-- A found result of the fuelled `findClosingBacktick` loop lies between
the start index and the end of the text, at a backtick. -/
theorem fcbAux_some (text : List Char) :
    ∀ (fuel : Nat) (s : FcbState) (j : Nat), fcbAux text fuel s = some j →
      s.i ≤ j ∧ j < text.length ∧ text.getD j ' ' = backtick := by
  intro fuel
  induction fuel with
  | zero => intro s j h; simp [fcbAux] at h
  | succ n ih =>
    intro s j h
    rw [fcbAux] at h
    split at h
    · rename_i hcond
      cases hstep : fcbStep text s with
      | inl r =>
        rw [hstep] at h
        have hr := fcbStep_inl text s r hstep
        have hj : r = j := by simpa using h
        exact ⟨by omega, by omega, by rw [← hj, hr.1]; exact hr.2⟩
      | inr s2 =>
        rw [hstep] at h
        have := ih s2 j h
        have hlt := fcbStep_inr text s s2 hstep
        exact ⟨by omega, this.2.1, this.2.2⟩
    · exact absurd h (by simp)

/-- Claim C10: `findClosingBacktick` is total and returns either exactly
`-1`, or an index `i` with `startPos ≤ i < text.length` whose character is a
backtick; it never returns any other value (totality is by construction of
the embedding, and all character accesses are bounds-guarded reads). -/
theorem findClosingBacktick_safety (text : List Char) (startPos : Nat) :
    findClosingBacktick text startPos = -1
    ∨ ((startPos : Int) ≤ findClosingBacktick text startPos
        ∧ findClosingBacktick text startPos < (text.length : Int)
        ∧ text.getD (findClosingBacktick text startPos).toNat ' ' = backtick) := by
  cases h : findClosingBacktickNat text startPos with
  | none => exact Or.inl (by simp [findClosingBacktick, h])
  | some j =>
    have hb := fcbAux_some text (text.length + 1) ⟨startPos, 1, false, none⟩ j h
    have h1 : startPos ≤ j := hb.1
    have hv : findClosingBacktick text startPos = (j : Int) := by
      simp [findClosingBacktick, h]
    rw [hv]
    refine Or.inr ⟨?_, ?_, ?_⟩
    · exact_mod_cast h1
    · exact_mod_cast hb.2.1
    · simpa using hb.2.2

/-- Claim C4 (failing input): on the source text `\\` + backtick — an
escaped backslash followed by the literal's closing backtick —
`findClosingBacktick` skips the backtick at index 2 as if it were escaped
(its preceding backslash is itself escaped) and reports no closing backtick
at all, while the comment-membership scanner of `src/utils.ts` and the
diagnostic provider's extractor both treat the character after two
consecutive backslashes as an un-escaped delimiter: `isInsideComment`
correctly closes the quoted string `'\\'` and sees the following `/*`,
and `extractTemplateContent` ends the literal at index 2. -/
theorem findClosingBacktick_double_backslash :
    findClosingBacktick exDoubleBackslash 0 = -1
    ∧ extractTemplateContent exDoubleBackslash 0 = some [backslashChar, backslashChar]
    ∧ extractTemplateEnd exDoubleBackslash 0 = some 2
    ∧ isInsideComment exQuoteEsc 6 = true := by
  refine ⟨by decide, by decide, by decide, by decide⟩

set_option maxHeartbeats 1000000 in
/-- The `isInsideComment` loop never drives `templateDepth` negative: the
only decrement is guarded by `templateDepth > 0`. -/
theorem commentStep_depth (text : List Char) (s : CommentScanState)
    (hd : 0 ≤ s.templateDepth) : 0 ≤ (commentStep text s).templateDepth := by
  simp only [commentStep]
  repeat' split
  all_goals (try simp_all)
  all_goals omega

set_option maxHeartbeats 1000000 in
/-- Continuing iterations of the extractor loop never drive the
interpolation depth negative: the only decrement is guarded by
`depth > 0`. -/
theorem etcStep_depth (text : List Char) (s s2 : EtcState)
    (hd : 0 ≤ s.depth) (h : etcStep text s = Sum.inr s2) : 0 ≤ s2.depth := by
  simp only [etcStep] at h
  repeat' split at h
  all_goals (try (injection h with h2))
  all_goals (try subst h2)
  all_goals (try simp_all)
  all_goals omega

set_option maxHeartbeats 1000000 in
/-- Continuing iterations of the interpolation-span scan of
`replaceInterpolationsWithPlaceholders` keep the depth counter at least 1
(the scan breaks out exactly when the decrement would reach 0), so the
interpolation depth `depth - 1` stays at least 0. -/
theorem ripwpStep_depth (text : List Char) (s s2 : RipwpState)
    (hd : 1 ≤ s.depth) (h : ripwpStep text s = Sum.inr s2) : 0 ≤ s2.depth - 1 := by
  simp only [ripwpStep] at h
  repeat' split at h
  all_goals (try (injection h with h2))
  all_goals (try subst h2)
  all_goals (try simp_all)
  all_goals omega

/-- A close brace met by the `isInsideComment` loop inside a template
string at `templateDepth = 0` only advances the index: no field of the scan
state changes. -/
theorem commentStep_closeBrace (text : List Char) (s : CommentScanState)
    (h1 : s.inComment = false) (h2 : s.inString = false)
    (h3 : s.inTemplateString = true) (h4 : s.templateDepth = 0)
    (hch : text.getD s.i ' ' = closeBrace) :
    commentStep text s = { s with i := s.i + 1 } := by
  simp at hch
  simp [commentStep, hch, h1, h2, h3, h4,
    (by decide : ¬(closeBrace = backslashChar)),
    (by decide : ¬(closeBrace = quoteD)), (by decide : ¬(closeBrace = quoteS)),
    (by decide : ¬(closeBrace = backtick)), (by decide : ¬(closeBrace = dollar)),
    (by decide : ¬(closeBrace = '/')), (by decide : ¬(closeBrace = '*'))]

/-- A close brace met by the `findClosingBacktick` loop outside strings at
depth 1 (interpolation depth 0) only advances the index. -/
theorem fcbStep_closeBrace (text : List Char) (s : FcbState)
    (h1 : s.inString = false) (h2 : s.depth = 1)
    (hch : text.getD s.i ' ' = closeBrace)
    (hprev : (if 0 < s.i then text.getD (s.i - 1) ' ' else ' ') ≠ backslashChar) :
    fcbStep text s = Sum.inr { s with i := s.i + 1 } := by
  simp at hch hprev
  simp [fcbStep, hch, h1, h2, hprev,
    (by decide : ¬(closeBrace = backslashChar)),
    (by decide : ¬(closeBrace = quoteD)), (by decide : ¬(closeBrace = quoteS)),
    (by decide : ¬(closeBrace = backtick)), (by decide : ¬(closeBrace = dollar))]

/-- A close brace met by the extractor loop outside strings and nested
templates at depth 0 only advances the index: the decrement is skipped and
the backtick test fails. -/
theorem etcStep_closeBrace (text : List Char) (s : EtcState)
    (h1 : s.inString = false) (h2 : s.inNestedTemplate = false) (h3 : s.depth = 0)
    (hch : text.getD s.i ' ' = closeBrace) :
    etcStep text s = Sum.inr { s with i := s.i + 1 } := by
  simp at hch
  simp [etcStep, hch, h1, h2, h3,
    (by decide : ¬(closeBrace = backslashChar)),
    (by decide : ¬(closeBrace = quoteD)), (by decide : ¬(closeBrace = quoteS)),
    (by decide : ¬(closeBrace = backtick)), (by decide : ¬(closeBrace = dollar)),
    (by decide : ¬(closeBrace = openBrace))]

/-- A close brace met by the outer loop of
`replaceInterpolationsWithPlaceholders` — outside any `${` span — is passed
over without change: it does not open a span, and only the cursor
advances. -/
theorem ripwpAux_closeBrace (fuel i : Nat) (result : List Char)
    (hi : i < result.length) (hch : result.getD i ' ' = closeBrace) :
    ripwpAux (fuel + 1) result i = ripwpAux fuel result (i + 1) := by
  have hd : ¬(result.getD i ' ' = dollar ∧ result.get? (i + 1) = some openBrace) := by
    rw [hch]
    exact fun hcon => absurd hcon.1 (by decide)
  rw [ripwpAux, if_pos hi, if_neg hd]

/-- Claim C7: at every step of every scanning operation the interpolation
depth counter stays at least zero, and a close brace met at interpolation
depth zero leaves the scan state unchanged apart from the advancing cursor
and raises no error.  The conjuncts cover the comment-membership query
(`commentStep` of `src/utils.ts`, counter `templateDepth`), the
closing-backtick search (`fcbStep` of `src/foldingProvider.ts`, whose
counter starts at 1 for the literal itself, so the interpolation depth is
`depth - 1`), the literal content extraction (`etcStep` of the diagnostic
provider, whose close-brace decrement is guarded by `depth > 0`), and the
interpolation substitution (`ripwpStep` for the span scan, whose counter
starts at 1 per `${` span and whose loop breaks before the depth could go
negative, and the outer loop, which passes over a close brace outside any
span). -/
theorem scanner_depth_invariants (text result : List Char)
    (sc : CommentScanState) (sf : FcbState) (se : EtcState) (sr : RipwpState)
    (i fuel : Nat)
    (hc : 0 ≤ sc.templateDepth) (hf : 1 ≤ sf.depth)
    (he : 0 ≤ se.depth) (hr : 1 ≤ sr.depth) :
    (0 ≤ (commentStep text sc).templateDepth)
    ∧ (∀ s2, fcbStep text sf = Sum.inr s2 → 0 ≤ s2.depth - 1)
    ∧ (∀ s2, etcStep text se = Sum.inr s2 → 0 ≤ s2.depth)
    ∧ (∀ s2, ripwpStep text sr = Sum.inr s2 → 0 ≤ s2.depth - 1)
    ∧ (sc.inComment = false → sc.inString = false → sc.inTemplateString = true →
        sc.templateDepth = 0 → text.getD sc.i ' ' = closeBrace →
        commentStep text sc = { sc with i := sc.i + 1 })
    ∧ (sf.inString = false → sf.depth = 1 → text.getD sf.i ' ' = closeBrace →
        (if 0 < sf.i then text.getD (sf.i - 1) ' ' else ' ') ≠ backslashChar →
        fcbStep text sf = Sum.inr { sf with i := sf.i + 1 })
    ∧ (se.inString = false → se.inNestedTemplate = false → se.depth = 0 →
        text.getD se.i ' ' = closeBrace →
        etcStep text se = Sum.inr { se with i := se.i + 1 })
    ∧ (i < result.length → result.getD i ' ' = closeBrace →
        ripwpAux (fuel + 1) result i = ripwpAux fuel result (i + 1)) :=
  ⟨commentStep_depth text sc hc,
   fun s2 h => fcbStep_inr_depth text sf s2 hf h,
   fun s2 h => etcStep_depth text se s2 he h,
   fun s2 h => ripwpStep_depth text sr s2 hr h,
   fun a b c d e => commentStep_closeBrace text sc a b c d e,
   fun a b c d => fcbStep_closeBrace text sf a b c d,
   fun a b c d => etcStep_closeBrace text se a b c d,
   fun a b => ripwpAux_closeBrace fuel i result a b⟩

/-- Witness for C7: the invariants instantiated on a one-character text
holding a close brace, at interpolation depth zero in all four scanners. -/
theorem scanner_depth_invariants_witness :
    commentStep [closeBrace] ⟨0, false, false, true, 0, none⟩
        = ⟨1, false, false, true, 0, none⟩
    ∧ fcbStep [closeBrace] ⟨0, 1, false, none⟩ = Sum.inr ⟨1, 1, false, none⟩
    ∧ etcStep [closeBrace] ⟨0, 0, false, false, none⟩
        = Sum.inr ⟨1, 0, false, false, none⟩
    ∧ ripwpAux 1 [closeBrace] 0 = ripwpAux 0 [closeBrace] 1 := by
  have h := scanner_depth_invariants [closeBrace] [closeBrace]
    ⟨0, false, false, true, 0, none⟩ ⟨0, 1, false, none⟩ ⟨0, 0, false, false, none⟩
    ⟨0, 1, false, false, none⟩ 0 0 (by decide) (by decide) (by decide) (by decide)
  exact ⟨h.2.2.2.2.1 rfl rfl rfl rfl (by decide),
         h.2.2.2.2.2.1 rfl rfl (by decide) (by decide),
         h.2.2.2.2.2.2.1 rfl rfl rfl (by decide),
         h.2.2.2.2.2.2.2 (by decide) (by decide)⟩

/-- Claim C9: the Fold Range Resolver emits a fold range for a confirmed
literal (a leader match whose closing backtick is found) exactly when
`endLine - startLine ≥ 2`, i.e. the literal spans at least three source
lines, and in that case the range runs from the tag's line to the closing
backtick's line; a two-line literal yields no fold range and a three-line
literal yields one (spec 4.7's overlap resolution afterwards only discards
ranges strictly contained in another candidate). -/
theorem foldRange_emission (text : List Char) (idx len endPos : Nat)
    (h : findClosingBacktickNat text (idx + len) = some endPos) :
    ((foldCandidate text idx len).isSome ↔ 2 ≤ lineOf text endPos - lineOf text idx)
    ∧ (2 ≤ lineOf text endPos - lineOf text idx →
        foldCandidate text idx len = some ⟨lineOf text idx, lineOf text endPos⟩)
    ∧ provideFoldingRanges defaultTagPatterns exThreeLine = [⟨0, 2⟩]
    ∧ provideFoldingRanges defaultTagPatterns exTwoLine = [] := by
  have hfc : foldCandidate text idx len
      = if 2 ≤ lineOf text endPos - lineOf text idx
        then some ⟨lineOf text idx, lineOf text endPos⟩ else none := by
    simp [foldCandidate, h]
  refine ⟨?_, ?_, by decide, by decide⟩
  · rw [hfc]
    by_cases hcond : 2 ≤ lineOf text endPos - lineOf text idx <;> simp [hcond]
  · intro hcond
    rw [hfc, if_pos hcond]

/-- Witness for C9: the three-line literal's sole match is emitted as the
fold range over lines 0 to 2. -/
theorem foldRange_emission_witness :
    foldCandidate exThreeLine 0 4 = some ⟨0, 2⟩ :=
  (foldRange_emission exThreeLine 0 4 7 (by decide)).2.1 (by decide)

/-- Claim C1 (failing input): literal content `a\` + backtick + `b`,
closed by a backtick, extracted from offset 0.  The claim's round trip
fails because extraction and closing-delimiter relocation disagree on
escaped backticks: `extractTemplateContent` (diagnostic provider) honours
escape sequences only inside strings and nested templates, so it treats
the backslash-preceded backtick at offset 2 as the literal's closing
delimiter and returns content `a` + backslash ending at offset 2, while
`findClosingBacktick` (`src/foldingProvider.ts`) skips that backtick as
escaped and reports the closing delimiter at offset 4 — the extracted
content is not the source text up to the relocated closing delimiter.  On
interpolation content holding a close brace inside a string (`${"}"}`,
where the brace does not prematurely close the interpolation) and on
nested-literal content the two scans agree, and the extractor returns
exactly the span up to its own closing offset. -/
theorem extract_relocate_mismatch :
    extractTemplateContent exEscaped 0 = some ['a', backslashChar]
    ∧ extractTemplateEnd exEscaped 0 = some 2
    ∧ findClosingBacktick exEscaped 0 = 4
    ∧ ['a', backslashChar] ≠ (exEscaped.take 4).drop 0
    ∧ extractTemplateContent exBraces 0 = some (exBraces.take 6)
    ∧ extractTemplateEnd exBraces 0 = some 6
    ∧ findClosingBacktick exBraces 0 = 6
    ∧ extractTemplateContent exNested 0 = some (exNested.take 12)
    ∧ extractTemplateEnd exNested 0 = some 12 := by
  refine ⟨by decide, by decide, by decide, by decide, by decide, by decide, by decide,
    by decide, by decide⟩

/-- Processing a balanced token block leaves the validator's stack and
diagnostics untouched: the block validates silently in front of any
continuation and over any stack. -/
theorem validateTokens_balanced_append (offset : Nat) (toks : List TagToken)
    (hb : BalancedTokens toks) :
    ∀ (ts : List TagToken) (stack : List (List Char × Nat)),
      validateTokens offset (toks ++ ts) stack = validateTokens offset ts stack := by
  induction hb with
  | nil => intro ts stack; rfl
  | voidLike t ts0 hclose hvoid _ ih =>
    intro ts stack
    show validateTokens offset (t :: (ts0 ++ ts)) stack = validateTokens offset ts stack
    cases stack <;> (rw [validateTokens]; simp [hclose, hvoid]; exact ih ts _)
  | node o c inner rest ho1 ho2 ho3 hc1 hc2 hbInner hbRest ihInner ihRest =>
    intro ts stack
    have hshape : (o :: (inner ++ c :: rest)) ++ ts
        = o :: (inner ++ (c :: (rest ++ ts))) := by
      simp [List.append_assoc]
    rw [hshape]
    have hpush : validateTokens offset (o :: (inner ++ (c :: (rest ++ ts)))) stack
        = validateTokens offset (inner ++ (c :: (rest ++ ts)))
            ((o.name, offset + o.offset) :: stack) := by
      cases stack <;> (rw [validateTokens]; simp [ho1, ho2, ho3])
    rw [hpush, ihInner (c :: (rest ++ ts)) ((o.name, offset + o.offset) :: stack)]
    rw [validateTokens]
    simp [hc1, hc2]
    exact ihRest ts stack

/-- Claim C2: a literal whose content is valid, fully-closed HTML — its
token stream is balanced, every opening tag that is neither syntactically
self-closing nor (case-insensitively) a void element being closed by a
matching, correctly nested closing tag — receives zero diagnostics from
the Tag Balance Validator: the walk emits nothing, and for plain content
with no nested leader matches and no interpolations the program's full
`validateHTML` pass returns the empty diagnostic list. -/
theorem validateHTML_balanced (pats : List (List Char)) (docText html : List Char)
    (offset fuel : Nat)
    (hb : BalancedTokens (tokenizeHTML html))
    (hn : execAll3 pats html = []) (hi : hasInterp html = false) :
    validateTokens offset (tokenizeHTML html) [] = []
    ∧ validateHTML pats docText (fuel + 1) html offset = [] := by
  have hwalk : validateTokens offset (tokenizeHTML html) [] = [] := by
    have := validateTokens_balanced_append offset (tokenizeHTML html) hb [] []
    simpa using this
  refine ⟨hwalk, ?_⟩
  rw [validateHTML]
  simp [hn, hi]
  exact hwalk

/-- Witness for C2: `<ul><li>x</li></ul>` tokenizes to a balanced stream
and the full `validateHTML` pass returns zero diagnostics for it. -/
theorem validateHTML_balanced_witness :
    validateTokens 0 (tokenizeHTML exBalancedTokens) [] = []
    ∧ validateHTML defaultTagPatterns exBalancedTokens 1 exBalancedTokens 0 = [] := by
  refine validateHTML_balanced defaultTagPatterns exBalancedTokens exBalancedTokens 0 0
    ?_ (by decide) (by decide)
  have htok : tokenizeHTML exBalancedTokens
      = [⟨['u', 'l'], 0, 4, false, false⟩, ⟨['l', 'i'], 4, 8, false, false⟩,
         ⟨['l', 'i'], 9, 14, true, false⟩, ⟨['u', 'l'], 14, 19, true, false⟩] := by decide
  rw [htok]
  have hinner : BalancedTokens [(⟨['l', 'i'], 4, 8, false, false⟩ : TagToken),
      ⟨['l', 'i'], 9, 14, true, false⟩] := by
    have := BalancedTokens.node ⟨['l', 'i'], 4, 8, false, false⟩ ⟨['l', 'i'], 9, 14, true, false⟩
      [] [] rfl rfl (by decide) rfl rfl BalancedTokens.nil BalancedTokens.nil
    simpa using this
  have := BalancedTokens.node ⟨['u', 'l'], 0, 4, false, false⟩ ⟨['u', 'l'], 14, 19, true, false⟩
    [⟨['l', 'i'], 4, 8, false, false⟩, ⟨['l', 'i'], 9, 14, true, false⟩] []
    rfl rfl (by decide) rfl rfl hinner BalancedTokens.nil
  simpa using this

/-- Unclosed-tag warnings never carry the unmatched-closing message. -/
theorem filter_unclosed_map (stack : List (List Char × Nat)) :
    (stack.map mkUnclosed).filter isUnmatchedDiag = [] := by
  induction stack with
  | nil => rfl
  | cons t ts ih => simp [mkUnclosed, isUnmatchedDiag, List.filter, ih]

/-- The unmatched-closing diagnostics of a validator walk are exactly the
image of the closing tags met at an empty stack, in order; the walk's
stack and the tracked depth advance in step. -/
theorem validate_unmatched_eq (offset : Nat) (toks : List TagToken) :
    ∀ stack : List (List Char × Nat),
      (validateTokens offset toks stack).filter isUnmatchedDiag
        = (emptyStackCloses toks stack.length).map (mkUnmatched offset) := by
  induction toks with
  | nil =>
    intro stack
    simp only [validateTokens, emptyStackCloses]
    simpa using filter_unclosed_map stack.reverse
  | cons t ts ih =>
    intro stack
    cases stack with
    | nil =>
      rw [validateTokens]
      by_cases hc : t.close = true
      · simp [hc, List.filter, isUnmatchedDiag, mkUnmatched, emptyStackCloses]
        simpa using ih []
      · by_cases hv : t.selfClose = true ∨ isSelfClosingTag t.name = true
        · simp [hc, hv, emptyStackCloses]; simpa using ih []
        · simp [hc, hv, emptyStackCloses]
          simpa using ih [(t.name, offset + t.offset)]
    | cons top rest =>
      simp only [List.length_cons]
      rw [validateTokens]
      by_cases hc : t.close = true
      · by_cases hn : top.1 = t.name
        · simp [hc, hn, emptyStackCloses]; simpa using ih rest
        · simp [hc, hn, List.filter, isUnmatchedDiag, mkMismatched, emptyStackCloses]
          simpa using ih rest
      · by_cases hv : t.selfClose = true ∨ isSelfClosingTag t.name = true
        · simp [hc, hv, emptyStackCloses]; simpa using ih (top :: rest)
        · simp [hc, hv, emptyStackCloses]
          simpa using ih ((t.name, offset + t.offset) :: top :: rest)

/-- Claim C5: for every closing tag token met while the open-tag stack is
empty, the validator emits exactly one Error diagnostic with the
`Unmatched closing tag` message for that tag, whose range starts at the
tag's document position `offset + match.index` and spans the full match —
the unmatched-closing diagnostics of a walk started on the empty stack are
in one-to-one order-preserving correspondence with those tokens, each
mapped to `mkUnmatched offset` (range `[offset + index, offset + stop)`,
Error severity); no other token contributes such a diagnostic. -/
theorem unmatched_closing_exact (offset : Nat) (toks : List TagToken) :
    (validateTokens offset toks []).filter isUnmatchedDiag
      = (emptyStackCloses toks 0).map (mkUnmatched offset) := by
  simpa using validate_unmatched_eq offset toks []

/-- Claim C8 counterexample: the void-element check of the program is not
case-sensitive.  `isSelfClosingTag` lowercases the tag name before the
membership test, so `<BR>` is treated as a void element and the validator
emits no diagnostic for it — although `BR` is not itself in the
void-element list and the tag does not use self-closing syntax, it is not
pushed and not reported unclosed. -/
theorem void_case_insensitive :
    validateTokens 0 (tokenizeHTML exBrUpper) [] = []
    ∧ tokenizeHTML exBrUpper = [⟨"BR".toList, 0, 4, false, false⟩]
    ∧ isSelfClosingTag "BR".toList = true
    ∧ "BR".toList ∉ voidElements := by
  refine ⟨by decide, by decide, by decide, by decide⟩

/-- Claim C8 (amended): closing-tag matching in the validator is
case-sensitive — a closing tag matches the stack top exactly when the
names are identical character lists, letter case included, and otherwise
the mismatch Error is raised — while membership in the fixed void-element
set is case-insensitive: the name is lowercased before the lookup.
Behaviourally, `<div></DIV>` yields a mismatch diagnostic; `<br>` and
`<BR>` both validate silently as void elements; and `<Br></Br>` pushes
nothing, so its closing tag meets an empty stack and raises the unmatched
Error. -/
theorem validator_case_sensitivity (offset : Nat) (t : TagToken)
    (top : List Char × Nat) (ts : List TagToken) (stack : List (List Char × Nat))
    (hc : t.close = true) :
    (validateTokens offset (t :: ts) (top :: stack)
      = if top.1 = t.name then validateTokens offset ts stack
        else mkMismatched offset top.1 t :: validateTokens offset ts stack)
    ∧ validateTokens 0 (tokenizeHTML exCaseMismatch) []
        = [⟨5, 11, DiagMsg.mismatchedClosing "div".toList "DIV".toList, Severity.error⟩]
    ∧ validateTokens 0 (tokenizeHTML exBrLower) [] = []
    ∧ validateTokens 0 (tokenizeHTML exBrUpper) [] = []
    ∧ validateTokens 0 (tokenizeHTML exBrMixed) []
        = [⟨4, 9, DiagMsg.unmatchedClosing "Br".toList, Severity.error⟩]
    ∧ isSelfClosingTag "br".toList = true
    ∧ isSelfClosingTag "Br".toList = true
    ∧ "Br".toList ∉ voidElements := by
  refine ⟨?_, by decide, by decide, by decide, by decide, by decide, by decide, by decide⟩
  rw [validateTokens]
  simp [hc]

/-- Witness for C8: a lone `</DIV>` token against an open `div` entry on
the stack produces the mismatch diagnostic. -/
theorem validator_case_sensitivity_witness :
    validateTokens 0 [⟨"DIV".toList, 5, 11, true, false⟩] [("div".toList, 0)]
      = [mkMismatched 0 "div".toList ⟨"DIV".toList, 5, 11, true, false⟩] := by
  have h := (validator_case_sensitivity 0 ⟨"DIV".toList, 5, 11, true, false⟩
    ("div".toList, 0) [] [] rfl).1
  rw [h]
  decide

/-- Dropping a prefix by predicate never lengthens a list. -/
theorem dropWhile_length_le (p : Char → Bool) :
    ∀ l : List Char, (l.dropWhile p).length ≤ l.length := by
  intro l
  induction l with
  | nil => simp
  | cons a l2 ih =>
    rw [List.dropWhile]
    split
    · exact Nat.le_trans ih (by simp)
    · simp

/-- Trimming never lengthens the content. -/
theorem trimChars_length_le (s : List Char) : (trimChars s).length ≤ s.length := by
  unfold trimChars
  have h1 := dropWhile_length_le wsChar s
  have h2 := dropWhile_length_le wsChar (s.dropWhile wsChar).reverse
  simp only [List.length_reverse] at *
  omega

/-- A list whose first two elements are forced is at least two long. -/
theorem take_two_length {s : List Char} {a b : Char} (h : s.take 2 = [a, b]) :
    2 ≤ s.length := by
  have := congrArg List.length h
  simp [List.length_take] at this
  omega

/-- The recursion-free case of the stripping loop of `extractOuterTags`:
content whose trimmed form does not begin with `${` goes straight to the
opening-tag analysis. -/
theorem extractOuterTagsAux_base (fuel : Nat) (s : List Char)
    (h : (trimChars s).take 2 ≠ [dollar, openBrace]) :
    extractOuterTagsAux (fuel + 1) s = baseOuter (trimChars s) := by
  rw [extractOuterTagsAux]
  simp [h]

/-- Claim C6: the outer structure computed for a nested literal is the
entire first opening tag, attributes included, when the first top-level
element is syntactically self-closing (the match ends in `/>`); otherwise
`<T></T>` for the first top-level opening tag name `T`; and the generic
placeholder `<span></span>` when no opening tag is found.  A leading
interpolation expression is stripped: when the expression contains a
nested-template leader (the hard-coded regex), the literal at the first
backtick from that match is extracted and, its content being non-empty,
the resolver recurses into it and uses that literal's outer structure
directly; an expression without such a leader is dropped and the remaining
content analysed. -/
theorem extractOuterTags_characterization (s expr content T tag : List Char)
    (eb p bt : Nat) :
    ((trimChars s).take 2 ≠ [dollar, openBrace] →
      firstOpenTag (trimChars s) = none → extractOuterTags s = spanFallback)
    ∧ ((trimChars s).take 2 ≠ [dollar, openBrace] →
        firstOpenTag (trimChars s) = some (T, tag) → endsSlashGt tag = true →
        extractOuterTags s = tag)
    ∧ ((trimChars s).take 2 ≠ [dollar, openBrace] →
        firstOpenTag (trimChars s) = some (T, tag) → endsSlashGt tag = false →
        extractOuterTags s = mkOpenClose T)
    ∧ ((trimChars s).take 2 = [dollar, openBrace] →
        findMatchingBrace (trimChars s) 1 = some eb →
        expr = ((trimChars s).take eb).drop 2 →
        nestedTemplateMatchIndex expr = some p →
        indexOfFrom expr backtick (expr.length + 1) p = some bt →
        extractTemplateContent expr (bt + 1) = some content → content ≠ [] →
        (trimChars content).take 2 ≠ [dollar, openBrace] →
        extractOuterTags s = extractOuterTags content)
    ∧ ((trimChars s).take 2 = [dollar, openBrace] →
        findMatchingBrace (trimChars s) 1 = some eb →
        expr = ((trimChars s).take eb).drop 2 →
        nestedTemplateMatchIndex expr = none →
        (trimChars ((trimChars s).drop (eb + 1))).take 2 ≠ [dollar, openBrace] →
        extractOuterTags s = extractOuterTags ((trimChars s).drop (eb + 1))) := by
  refine ⟨?_, ?_, ?_, ?_, ?_⟩
  · intro h1 h2
    unfold extractOuterTags
    rw [extractOuterTagsAux_base s.length s h1]
    simp [baseOuter, h2]
  · intro h1 h2 h3
    unfold extractOuterTags
    rw [extractOuterTagsAux_base s.length s h1]
    simp [baseOuter, h2, h3]
  · intro h1 h2 h3
    unfold extractOuterTags
    rw [extractOuterTagsAux_base s.length s h1]
    simp [baseOuter, h2, h3]
  · intro h1 h2 h3 h4 h5 h6 h7 h8
    subst h3
    have hm : s.length = (s.length - 1) + 1 := by
      have hl := trimChars_length_le s
      have h2l := take_two_length h1
      omega
    unfold extractOuterTags
    rw [extractOuterTagsAux]
    simp only [List.length_drop, List.length_take] at h5
    simp [h1, h2, h4, h5, h6, h7]
    rw [hm, extractOuterTagsAux_base (s.length - 1) content h8,
      extractOuterTagsAux_base content.length content h8]
  · intro h1 h2 h3 h4 h5
    subst h3
    have hm : s.length = (s.length - 1) + 1 := by
      have hl := trimChars_length_le s
      have h2l := take_two_length h1
      omega
    unfold extractOuterTags
    rw [extractOuterTagsAux]
    simp [h1, h2, h4]
    rw [hm, extractOuterTagsAux_base (s.length - 1) _ h5,
      extractOuterTagsAux_base ((trimChars s).length - (eb + 1)) _ h5]

/-- Witness for C6: `<li>a</li>` collapses to `<li></li>`, and a literal
whose leading interpolation contains a `html`-literal collapses to that
inner literal's structure. -/
theorem extractOuterTags_characterization_witness :
    extractOuterTags exListItem = mkOpenClose ['l', 'i']
    ∧ extractOuterTags exCondContent = extractOuterTags exListItem := by
  constructor
  · exact (extractOuterTags_characterization exListItem [] [] ['l', 'i']
      "<li>".toList 0 0 0).2.2.1 (by decide) (by decide) (by decide)
  · exact (extractOuterTags_characterization exCondContent
      ("cond ? html".toList ++ [backtick] ++ "<li>a</li>".toList ++ [backtick]
        ++ " : 0".toList) exListItem [] [] 29 7 11).2.2.2.1
      (by decide) (by decide) (by decide) (by decide) (by decide) (by decide)
      (by decide) (by decide)

/-- Claim C3 counterexample: in the document `/* dom` + backtick + three
commented-out lines + backtick + ` */`, the sole leader match sits at offset
3 inside a block comment, yet the Fold Range Resolver of
`src/foldingProvider.ts` performs no comment-membership check and emits a
fold range for it. -/
theorem commented_leader_fold_range :
    execAll defaultTagPatterns exCommentText = [(3, 4)]
    ∧ isInsideComment exCommentText 3 = true
    ∧ provideFoldingRanges defaultTagPatterns exCommentText = [⟨0, 3⟩] := by
  refine ⟨by decide, by decide, by decide⟩

/-- Claim C3 (amended): a diagnostics leader match whose opening backtick —
the last character of the match — lies inside a block comment is discarded
by `updateDiagnostics` before extraction, and so contributes no validation
diagnostics; on the commented-out example document the confirmed match
list and the diagnostics are both empty.  The Fold Range Resolver performs
no such check (see the counterexample). -/
theorem commented_leader_no_diagnostics (pats : List (List Char))
    (text : List Char) (m : Nat × Nat) (hm : m ∈ execAll3 pats text)
    (hcom : isInsideComment text (m.1 + m.2 - 1) = true) :
    m ∉ confirmedLeaderMatches pats text
    ∧ updateDiagnosticsModel defaultTagPatterns exCommentText = []
    ∧ confirmedLeaderMatches defaultTagPatterns exCommentText = [] := by
  refine ⟨?_, by decide, by decide⟩
  unfold confirmedLeaderMatches
  intro hmem
  rw [List.mem_filter] at hmem
  simp [hcom] at hmem

/-- Witness for C3: the comment-interior match of the example document is
not confirmed. -/
theorem commented_leader_no_diagnostics_witness :
    (3, 4) ∉ confirmedLeaderMatches defaultTagPatterns exCommentText :=
  (commented_leader_no_diagnostics defaultTagPatterns exCommentText (3, 4)
    (by decide) (by decide)).1
